import Mathlib

/-!
# Verification of the timetabler engine (`src/timetabler.rs`)

This file gives a shallow embedding of the scheduling engine of the
`timetabler-egui` repository and settles a list of claims about it.

Modelling conventions:
* Rust `HashMap<&str, Vec<Group>>` is modelled as an association list
  (`Registry`) kept in key-insertion order; `entry(..).or_insert(..)`
  appends a fresh key at the end, matching insertion semantics.  The only
  place the program iterates over the whole map is the final inversion into
  `subjects_by_slot`, where the Rust iteration order is unspecified; the
  insertion-order fold used here is one deterministic resolution of it.
* `Vec`/slice indexing that is always in bounds in the program is modelled
  with the total functions `List.getD` / `List.set`.  Explicit `.unwrap()`
  calls and `HashMap` indexing (which panic in Rust) are modelled by the
  `Outcome.panicked` result.
* Loops whose termination is not structural are implemented with an explicit
  fuel argument; fuel exhaustion is a distinguished `Outcome.nofuel`/`none`
  result, and the fuels supplied at call sites are proven sufficient.
* Machine integers: `max_groups` and `daily_lesson_capacity` are `u8`
  values, so the total slot count `daily_lesson_capacity * 5` is computed
  modulo 2^8 (`totalSlots`).  The `i32` indices of the recursive sort are
  modelled with `Int`.
-/

namespace Timetabler

/-- `Group` from `timetabler.rs` (lines 35-39): an assigned slot plus the
member student indices. -/
structure Group where
  slot : Nat
  student_idxs : List Nat
deriving Repr, DecidableEq

/-- The `groups_by_subject : HashMap<&str, Vec<Group>>` map, as an
association list in key-insertion order. -/
abbrev Registry := List (String × List Group)

/-- One student's personal slot array: `Vec<Option<(&str, usize)>>`. -/
abbrev Personal := List (Option (String × Nat))

/-- `Student` (lines 21-24): the finished slot table plus the id. -/
structure Student where
  slots : Personal
  id : String
deriving Repr, DecidableEq

/-- `HashMap` key lookup (`get`). -/
def lookupSubj (r : Registry) (s : String) : Option (List Group) :=
  match r with
  | [] => none
  | (k, v) :: rest => if k = s then some v else lookupSubj rest s

/-- `HashMap` key update: replaces the value of an existing key in place,
appends a fresh key at the end (= `entry(..).or_insert(..)` followed by a
mutation of the entry). -/
def setSubj (r : Registry) (s : String) (gs : List Group) : Registry :=
  match r with
  | [] => [(s, gs)]
  | (k, v) :: rest => if k = s then (k, gs) :: rest else (k, v) :: setSubj rest s gs

/-- `attendance` (lines 41-46).  `groups_by_subject[candidate.0]` panics
when the subject has no entry in the map, which is modelled by `none`;
otherwise `.get(candidate.1).map(..).unwrap_or_default()` yields the member
count of the group, or `0` when the group index does not exist. -/
def attendance (candidate : String × Nat) (groups_by_subject : Registry) : Option Nat :=
  (lookupSubj groups_by_subject candidate.1).map
    (fun gs => ((gs.get? candidate.2).map (fun g => g.student_idxs.length)).getD 0)

/-- The value `attendance` returns when it does not panic, i.e. when the
candidate's subject is present in the map (`attendance_eq_some`).  Used to
*state* the sorter's ordering; the sorter itself calls the panicking
`attendance`. -/
def attendanceD (candidate : String × Nat) (groups_by_subject : Registry) : Nat :=
  (attendance candidate groups_by_subject).getD 0

/-- `candidates[i as usize]` (always in bounds in the program). -/
def getC (l : List (String × Nat)) (i : Int) : String × Nat :=
  l.getD i.toNat ("", 0)

/-- `candidates.swap(i as usize, j as usize)`. -/
def swapC (l : List (String × Nat)) (i j : Int) : List (String × Nat) :=
  (l.set i.toNat (getC l j)).set j.toNat (getC l i)

/-- Result of a piece of Rust code: a value, a panic, or fuel exhaustion
(the latter never occurs for the fuels supplied at the call sites). -/
inductive Outcome (α : Type) where
  | ok (a : α)
  | panicked
  | nofuel
deriving Repr, DecidableEq

/-- The first `while` of the partition loop (lines 63-67): advance
`low_mark` while `low_mark <= high_mark` and the attendance at `low_mark`
is `<= pivot`.  The `&&` short-circuits, so `attendance` is only evaluated
when `low_mark <= high_mark`; a panicking `attendance` (candidate subject
absent from the map) panics the whole sort.  Fuel-based; the fuel supplied
by `partitionLoop` is proven sufficient. -/
def advanceLow (l : List (String × Nat)) (gbs : Registry) (pivot : Nat)
    (low high : Int) : Nat → Outcome Int
  | 0 => .nofuel
  | fuel + 1 =>
    if low ≤ high then
      match attendance (getC l low) gbs with
      | none => .panicked
      | some a =>
        if a ≤ pivot then advanceLow l gbs pivot (low + 1) high fuel
        else .ok low
    else .ok low

/-- The second `while` of the partition loop (lines 68-72): lower
`high_mark` while `low_mark <= high_mark` and the attendance at `high_mark`
is `>= pivot`; the `attendance` call panics when the candidate's subject
is absent from the map. -/
def lowerHigh (l : List (String × Nat)) (gbs : Registry) (pivot : Nat)
    (low high : Int) : Nat → Outcome Int
  | 0 => .nofuel
  | fuel + 1 =>
    if low ≤ high then
      match attendance (getC l high) gbs with
      | none => .panicked
      | some a =>
        if pivot ≤ a then lowerHigh l gbs pivot low (high - 1) fuel
        else .ok high
    else .ok high

/-- The `loop` of `sort_by_ascending_attendance` (lines 62-78).  After the
swap at `low' < high'` the source re-enters the first `while` at `low'`;
since the swapped-in element `l[high']` has attendance `< pivot` (that is
how the second `while` exited with `low' <= high'`), that `while` always
advances past `low'`, so the continuation is exactly a recursive call at
`low' + 1` on the swapped list. -/
def partitionLoop (l : List (String × Nat)) (gbs : Registry) (pivot : Nat)
    (low high : Int) : Nat → Outcome (List (String × Nat) × Int)
  | 0 => .nofuel
  | fuel + 1 =>
    match advanceLow l gbs pivot low high (l.length + 1) with
    | .nofuel => .nofuel
    | .panicked => .panicked
    | .ok low' =>
      match lowerHigh l gbs pivot low' high (l.length + 1) with
      | .nofuel => .nofuel
      | .panicked => .panicked
      | .ok high' =>
        if low' < high' then
          partitionLoop (swapC l low' high') gbs pivot (low' + 1) high' fuel
        else
          .ok (l, high')

/-- `sort_by_ascending_attendance` (lines 48-83), fuel-based.  The `i32`
indices `start`/`end` are modelled with `Int`.  The pivot is
`attendance(candidates[start as usize], ..)` (line 58), evaluated after
the `start >= end` guard; it panics when the pivot candidate's subject is
absent from the map. -/
def sortAux (gbs : Registry) : Nat → List (String × Nat) → Int → Int →
    Outcome (List (String × Nat))
  | 0, _, _, _ => .nofuel
  | fuel + 1, l, start, stop =>
    if start ≥ stop then
      .ok l
    else
      match attendance (getC l start) gbs with
      | none => .panicked
      | some pivot =>
        match partitionLoop l gbs pivot (start + 1) stop (l.length + 2) with
        | .nofuel => .nofuel
        | .panicked => .panicked
        | .ok (l', hm) =>
          match sortAux gbs fuel (swapC l' start hm) start (hm - 1) with
          | .nofuel => .nofuel
          | .panicked => .panicked
          | .ok l3 => sortAux gbs fuel l3 (hm + 1) stop

/-- The whole-list invocation of the sort, as performed at the call site
(lines 142-143): `start = 0`, `end = candidates.len() as i32 - 1`. -/
def sort_by_ascending_attendance (candidates : List (String × Nat))
    (gbs : Registry) (start stop : Int) : Outcome (List (String × Nat)) :=
  sortAux gbs (candidates.length + 1) candidates start stop

/-- Loop body of `try_assign_group_lazily` (lines 92-104): scan the groups
of the subject in creation order, settle on the first one whose slot is
free in the personal array. -/
def tryAssignAux (subject : String) (personal : Personal) :
    List Group → Nat → Option Personal
  | [], _ => none
  | g :: rest, idx =>
    if (personal.getD g.slot none).isSome then
      tryAssignAux subject personal rest (idx + 1)
    else
      some (personal.set g.slot (some (subject, idx)))

/-- `try_assign_group_lazily` (lines 85-107).  `some personal'` models the
`true` return with the mutated personal array; `none` models `false` (the
personal array is left unchanged by the caller in that case). -/
def try_assign_group_lazily (gbs : Registry) (personal : Personal)
    (subject : String) : Option Personal :=
  tryAssignAux subject personal ((lookupSubj gbs subject).getD []) 0

/-- Modelled from the spec (§4.1 `find_group_with_free_slot`): scans
existing groups of the subject in creation order and returns the first
(index, group) whose assigned slot is free in the student's personal
array.  Used to state the contract of `try_assign_group_lazily`. -/
def specFindFreeAux (personal : Personal) : List Group → Nat → Option (Nat × Group)
  | [], _ => none
  | g :: rest, idx =>
    if (personal.getD g.slot none).isSome then
      specFindFreeAux personal rest (idx + 1)
    else
      some (idx, g)

/-- Modelled from the spec (§4.1): whole-list version of `specFindFreeAux`. -/
def specFindFree (gbs : Registry) (personal : Personal) (subject : String) :
    Option (Nat × Group) :=
  specFindFreeAux personal ((lookupSubj gbs subject).getD []) 0

/-- The acceptability check of one candidate (lines 150-161): a candidate
is ok unless its group exists and one of the group's members already
occupies `next_free_slot`.  `groups_by_subject[candidate_subject]` is a
panicking map index (`none`). -/
def candidateOk (students : List Student) (gbs : Registry) (nfs : Nat)
    (c : String × Nat) : Option Bool :=
  (lookupSubj gbs c.1).map (fun gl =>
    match gl.get? c.2 with
    | none => true
    | some g =>
      g.student_idxs.all (fun i =>
        ((students.getD i ⟨[], ""⟩).slots.getD nfs none).isNone))

/-- The candidate scan of one probe iteration (lines 149-166): the first
candidate, in sorted order, that passes `candidateOk`. -/
def firstAcceptable (students : List Student) (gbs : Registry) (nfs : Nat) :
    List (String × Nat) → Outcome (Option (String × Nat))
  | [] => .ok none
  | c :: rest =>
    match candidateOk students gbs nfs c with
    | none => .panicked
    | some true => .ok (some c)
    | some false => firstAcceptable students gbs nfs rest

/-- `personal_slots_iter.position(|(pos, x)| pos > next_free_slot && x.is_none())`
(lines 172-177) where the iterator has already been consumed up to absolute
index `iterPos`: the first absolute index `i >= iterPos` whose entry is
empty and lies strictly after `nfs`, or `none` when the iterator runs out
(in which case the `.unwrap()` panics). -/
def findIdxFrom (personal : Personal) (iterPos nfs : Nat) : Option Nat :=
  (((personal.drop iterPos).enumFrom iterPos).find?
    (fun px => decide (nfs < px.1) && px.2.isNone)).map (fun px => px.1)

/-- The probe-slot advancement: Rust's `Iterator::position` returns the
index counted from the iterator's current position, so the new
`next_free_slot` is the *relative* index `i - iterPos`, and the iterator
is left at `i + 1`. -/
def advanceProbe (personal : Personal) (iterPos nfs : Nat) : Option (Nat × Nat) :=
  (findIdxFrom personal iterPos nfs).map (fun i => (i - iterPos, i + 1))

/-- The `'outer: loop` of `handle_subjects` (lines 148-178).
`ok (some (c, nfs))` is `break 'outer Some(c)` with the probe slot at which
the candidate was accepted; `ok none` is `break None` (which makes
`handle_subjects` return `true`, i.e. Unsolved).  The fuel `personal.length + 1`
supplied at the call site is sufficient because `iterPos` strictly
increases with every advancement. -/
def chooseCandidate (students : List Student) (gbs : Registry)
    (candidates : List (String × Nat)) (personal : Personal)
    (total_slots : Nat) (nfs iterPos : Nat) :
    Nat → Outcome (Option ((String × Nat) × Nat))
  | 0 => .nofuel
  | fuel + 1 =>
    match firstAcceptable students gbs nfs candidates with
    | .panicked => .panicked
    | .nofuel => .nofuel
    | .ok (some c) => .ok (some (c, nfs))
    | .ok none =>
      if nfs = total_slots - 1 then
        .ok none
      else
        match advanceProbe personal iterPos nfs with
        | none => .panicked
        | some (nfs', iterPos') =>
          chooseCandidate students gbs candidates personal total_slots nfs' iterPos' fuel

/-- In-place update of `students[i]`. -/
def updateStudent (sts : List Student) (i : Nat) (f : Student → Student) :
    List Student :=
  sts.set i (f (sts.getD i ⟨[], ""⟩))

/-- Applying the chosen candidate (lines 180-216).  If the chosen group
exists, every member's old slot is vacated and `next_free_slot` occupied,
and the group's slot is updated; otherwise `chosen_group_slot` is found by
scanning the personal array (a panicking `.unwrap()` when absent).  Then
the personal array is updated according to whether the chosen subject is
the current one. -/
def applyChosen (gbs : Registry) (personal : Personal)
    (students : List Student) (subject : String) (chosen : String × Nat)
    (nfs : Nat) : Outcome (Registry × Personal × List Student) :=
  let chosen_subject := chosen.1
  let chosen_group_idx := chosen.2
  match lookupSubj gbs chosen_subject with
  | none => .panicked
  | some gl =>
    match gl.get? chosen_group_idx with
    | some chosen_group =>
      let students' := chosen_group.student_idxs.foldl
        (fun sts i => updateStudent sts i (fun st =>
          { st with slots := ((st.slots.set chosen_group.slot none).set nfs (some (chosen_subject, chosen_group_idx))) })) students
      let gbs' := setSubj gbs chosen_subject
        (gl.set chosen_group_idx { chosen_group with slot := nfs })
      let chosen_group_slot := chosen_group.slot
      let personal' :=
        if chosen_subject = subject then
          personal.set nfs (some (subject, chosen_group_idx))
        else
          (personal.set nfs (personal.getD chosen_group_slot none)).set
            chosen_group_slot (some (subject, chosen_group_idx))
      .ok (gbs', personal', students')
    | none =>
      match personal.findIdx? (fun x =>
          match x with
          | some p => p.1 = chosen_subject
          | none => false) with
      | none => .panicked
      | some chosen_group_slot =>
        let personal' :=
          if chosen_subject = subject then
            personal.set nfs (some (subject, chosen_group_idx))
          else
            (personal.set nfs (personal.getD chosen_group_slot none)).set
              chosen_group_slot (some (subject, chosen_group_idx))
        .ok (gbs, personal', students)

/-- The mutable state threaded through `handle_subjects`. -/
structure HState where
  gbs : Registry
  personal : Personal
  students : List Student
deriving Repr

/-- One iteration of the `for &subject in subjects` loop of
`handle_subjects` (lines 117-227).  The `Bool` is the early `return true`
(Unsolved). -/
def handleOneSubject (max_groups : Nat) (total_slots : Nat) (st : HState)
    (subject : String) : Outcome (Bool × HState) :=
  match try_assign_group_lazily st.gbs st.personal subject with
  | some p' => .ok (false, { st with personal := p' })
  | none =>
    match st.personal.findIdx? (fun x => x.isNone) with
    | none => .panicked
    | some next_free_slot =>
      let gsub := lookupSubj st.gbs subject
      if ((gsub.getD []).length = max_groups) then
        match gsub with
        | none => .panicked
        | some gl =>
          let candidates := st.personal.filterMap id ++
            (List.range gl.length).map (fun i => (subject, i))
          match sort_by_ascending_attendance candidates st.gbs 0
              ((candidates.length : Int) - 1) with
          | .nofuel => .nofuel
          | .panicked => .panicked
          | .ok sortedc =>
            match chooseCandidate st.students st.gbs sortedc st.personal
                total_slots next_free_slot 0 (st.personal.length + 1) with
            | .panicked => .panicked
            | .nofuel => .nofuel
            | .ok none => .ok (true, st)
            | .ok (some (c, nfs)) =>
              match applyChosen st.gbs st.personal st.students subject c nfs with
              | .panicked => .panicked
              | .nofuel => .nofuel
              | .ok (gbs', p', sts') => .ok (false, ⟨gbs', p', sts'⟩)
      else
        let gbs' := if (lookupSubj st.gbs subject).isSome then st.gbs
          else setSubj st.gbs subject []
        let len := ((lookupSubj gbs' subject).getD []).length
        let p' := st.personal.set next_free_slot (some (subject, len))
        .ok (false, { st with gbs := gbs', personal := p' })

/-- `handle_subjects` (lines 109-230): iterate the student's subjects,
returning `true` the moment the displacement search gives up. -/
def handle_subjects (max_groups : Nat) (total_slots : Nat) :
    HState → List String → Outcome (Bool × HState)
  | st, [] => .ok (false, st)
  | st, s :: rest =>
    match handleOneSubject max_groups total_slots st s with
    | .panicked => .panicked
    | .nofuel => .nofuel
    | .ok (true, st') => .ok (true, st')
    | .ok (false, st') => handle_subjects max_groups total_slots st' rest

/-- One entry of the `make_global` loop (lines 237-253): membership
registration for the occupied slot `slotEntry.1` holding
`(subject, group_idx) = slotEntry.2`. -/
def makeGlobalStep (student_idx : Nat) (gbs : Registry)
    (slotEntry : Nat × (String × Nat)) : Registry :=
  let slot := slotEntry.1
  let subject := slotEntry.2.1
  let group_idx := slotEntry.2.2
  let groups := (lookupSubj gbs subject).getD []
  match groups.get? group_idx with
  | some g => setSubj gbs subject
      (groups.set group_idx { g with student_idxs := g.student_idxs ++ [student_idx] })
  | none => setSubj gbs subject
      (groups ++ [{ slot := slot, student_idxs := [student_idx] }])

/-- `make_global` (lines 232-254): fold the student's occupied personal
slots, in slot order, into the registry. -/
def make_global (gbs : Registry) (personal : Personal) (student_idx : Nat) :
    Registry :=
  (personal.enum.filterMap (fun ic => ic.2.map (fun c => (ic.1, c)))).foldl
    (makeGlobalStep student_idx) gbs

/-- `TimetableInfo` (lines 14-18); `max_groups` and `daily_lesson_capacity`
are `u8` values (0..255), students are `(id, subjects)` pairs in roster
order. -/
structure TimetableInfo where
  max_groups : Nat
  students : List (String × List String)
  daily_lesson_capacity : Nat

/-- `TimetableResult` (lines 27-33); `slots_by_student_id` is kept in
student-insertion order. -/
inductive TimetableResult where
  | Solved (subjects : List (List String))
      (slots_by_student_id : List (String × Personal))
  | Unsolved
deriving Repr, DecidableEq

/-- `let total_slots = timetable_info.daily_lesson_capacity * 5` (line 260):
a `u8` product, i.e. computed modulo 2^8. -/
def totalSlots (daily_lesson_capacity : Nat) : Nat :=
  (daily_lesson_capacity * 5) % 256

/-- The per-student loop of `solve_timetable` (lines 262-293).
`ok none` is the early `return TimetableResult::Unsolved`. -/
def solveLoop (max_groups : Nat) (total : Nat) :
    Nat → Registry → List Student → List (String × List String) →
    Outcome (Option (Registry × List Student))
  | _, gbs, sts, [] => .ok (some (gbs, sts))
  | idx, gbs, sts, (id, subjects) :: rest =>
    match handle_subjects max_groups total ⟨gbs, List.replicate total none, sts⟩ subjects with
    | .panicked => .panicked
    | .nofuel => .nofuel
    | .ok (true, _) => .ok none
    | .ok (false, st') =>
      let gbs' := make_global st'.gbs st'.personal idx
      solveLoop max_groups total (idx + 1) gbs' (st'.students ++ [⟨st'.personal, id⟩]) rest

/-- Inversion of the registry into `subjects_by_slot` (lines 295-303),
iterating the map in key-insertion order. -/
def invertRegistry (gbs : Registry) (total : Nat) : List (List String) :=
  gbs.foldl (fun acc sg =>
    sg.2.foldl (fun acc g => acc.set g.slot (acc.getD g.slot [] ++ [sg.1])) acc)
    (List.replicate total [])

/-- `solve_timetable` (lines 256-314). -/
def solve_timetable (info : TimetableInfo) : Outcome TimetableResult :=
  let total := totalSlots info.daily_lesson_capacity
  match solveLoop info.max_groups total 0 [] [] info.students with
  | .panicked => .panicked
  | .nofuel => .nofuel
  | .ok none => .ok .Unsolved
  | .ok (some (gbs, sts)) =>
    .ok (.Solved (invertRegistry gbs total) (sts.map (fun st => (st.id, st.slots))))

/-! ## Concrete inputs used to settle the claims

All three rosters satisfy the preconditions stated in §6 of the spec:
`max_groups >= 1`, `daily_lesson_capacity >= 1`, every student's subject
list is duplicate-free with at most `daily_lesson_capacity * 5` entries,
ids are unique, and at least one student is present. -/

/-- Roster exhibiting the relocation collision: while student `"S"` places
subject `"X"` (at group capacity), the group `("M", 0)` is displaced onto
the slot already holding group `("M", 1)`. -/
def scenario1 : TimetableInfo :=
  { max_groups := 2
    daily_lesson_capacity := 1
    students :=
      [ ("SA", ["X", "M"])
      , ("SB", ["P", "X"])
      , ("SC", ["P", "Q", "M"])
      , ("SD", ["X"])
      , ("SE", ["P", "X"])
      , ("S",  ["M", "P", "X"]) ] }

/-- Roster on which the displacement search cannot pack student `"S3"`:
its subject `"X"` collides at every probe slot (the Scenario C shape of
the spec). -/
def scenario2 : TimetableInfo :=
  { max_groups := 1
    daily_lesson_capacity := 1
    students :=
      [ ("S1", ["A", "B", "C", "D", "E"])
      , ("S2", ["A", "B", "C", "D", "X"])
      , ("S3", ["E", "X"]) ] }

/-- Roster on which the relative-index probe advancement lands on an
already-occupied personal slot of student `"S"`, whose entry is then
overwritten. -/
def scenario3 : TimetableInfo :=
  { max_groups := 1
    daily_lesson_capacity := 2
    students :=
      [ ("T1", ["A", "B", "P2", "P3", "P4", "P5"])
      , ("TC", ["A", "B", "C", "P4", "P5"])
      , ("TD", ["A", "B", "P2", "D", "P4", "P5"])
      , ("TE", ["A", "B", "P2", "P3", "P4", "P5", "E"])
      , ("TF", ["A", "B", "P2", "P3", "P4", "P5", "E", "F"])
      , ("TG", ["A", "B", "P2", "P3", "P4", "P5", "E", "F", "G"])
      , ("TX", ["A", "B", "P2", "P3", "P4", "P5", "X"])
      , ("S",  ["A", "B", "C", "D", "E", "F", "G", "X"]) ] }

/-! ## Spec-side definitions used for comparison -/

/-- Modelled from the spec (§4.4 step 6): the smallest slot index strictly
greater than `k` whose entry in the personal array is empty. -/
def nextFreeAfter (personal : Personal) (k : Nat) : Option Nat :=
  (List.range personal.length).find?
    (fun i => decide (k < i) && (personal.getD i none).isNone)

/-- Modelled from the claim about layout idempotence: re-derive the
subjects present at slot `k` from the per-student tables, counting each
subject once per distinct group index. -/
def derivedSlotSubjects (sbsid : List (String × Personal)) (k : Nat) :
    List String :=
  ((sbsid.map (fun p => p.2.getD k none)).filterMap id).dedup.map (fun c => c.1)

/-! ## Intermediate states of the scenarios, extracted from the pipeline -/

/-- The state of student `"S"` of `scenario1` after `handle_subjects` and
before `make_global`: the first five students have been fully processed,
then `"S"`'s subjects `["M", "P", "X"]` have been placed (the placement of
`"X"` displaces group `("M", 0)`). -/
def scenario1PreS : HState :=
  match solveLoop scenario1.max_groups 5 0 [] [] (scenario1.students.take 5) with
  | .ok (some (gbs, sts)) =>
    match handle_subjects scenario1.max_groups 5 ⟨gbs, List.replicate 5 none, sts⟩
        ["M", "P", "X"] with
    | .ok (_, st) => st
    | _ => ⟨[], [], []⟩
  | _ => ⟨[], [], []⟩

/-- The registry after `"S"`'s `make_global` step in `scenario1`
(`"S"` has student index 5). -/
def scenario1PostS : Registry :=
  make_global scenario1PreS.gbs scenario1PreS.personal 5

/-- The registry and the student list of `scenario2` after its first two
students have been fully processed. -/
def scenario2Pre : Registry × List Student :=
  match solveLoop scenario2.max_groups 5 0 [] [] (scenario2.students.take 2) with
  | .ok (some (gbs, sts)) => (gbs, sts)
  | _ => ([], [])

/-- Student `"S3"`'s personal array in `scenario2` when the displacement
search for its subject `"X"` starts: the lazy placement of `"E"` occupied
slot 4 and nothing else. -/
def s3personal : Personal :=
  [none, none, none, none, some ("E", 0)]

/-- The candidate list of `"S3"`'s displacement search in `scenario2`,
after sorting (the unsorted list is the personal entry `("E", 0)` followed
by the groups of `"X"`). -/
def s3sorted : List (String × Nat) :=
  match sort_by_ascending_attendance [("E", 0), ("X", 0)] scenario2Pre.1 0 1 with
  | .ok l => l
  | _ => []

/-! ## Theorems -/

/-- C1: the claim asserts that whenever `solve_timetable` returns `Solved`
on an input satisfying the preconditions, no subject appears more than once
in the list of any single slot of `subjects_by_slot`.  On `scenario1` the
solve succeeds, yet subject `"M"` appears twice in the list of slot 2: when
student `"S"` places `"X"`, the acceptability check (which only inspects
the members' personal arrays) lets group `("M", 0)` be relocated onto slot
2, where group `("M", 1)` already sits.  This contradicts the claim (and
the source's own comment at line 299, "It's guaranteed that this will
never cause duplicate subjects"). -/
theorem c1_duplicate_subject_in_slot :
    (match solve_timetable scenario1 with
     | .ok (.Solved subjects _) => (subjects.getD 2 []).count ("M")
     | _ => 0) = 2 := by
  rfl

/-- C3: the claim asserts that, after a failed probe, the next probe slot
is the smallest slot index strictly greater than the current probe slot
that is free in the student's personal array.  In `scenario2`, during
student `"S3"`'s displacement search for `"X"` (personal array
`s3personal`, probes failing at slots 0 and then 1), the shared
`personal_slots_iter` has already been consumed up to index 2, and Rust's
`Iterator::position` returns the index counted from the iterator's current
position: the advancement from probe slot 1 yields relative index
`2 - 2 = 0` instead of the smallest free slot 2, re-probing slot 0; the
search then exhausts the iterator and panics on the `.unwrap()` at line
177 instead of reaching the last slot and returning Unsolved. -/
theorem c3_relative_probe_advance :
    advanceProbe s3personal 2 1 = some (0, 3) ∧
    nextFreeAfter s3personal 1 = some 2 ∧
    chooseCandidate scenario2Pre.2 scenario2Pre.1 s3sorted s3personal 5 0 0 6 =
      .panicked := by
  refine ⟨rfl, rfl, rfl⟩

/-- C4: the claim asserts that on every input satisfying the preconditions
`solve_timetable` terminates without panicking, returning `Solved` or
`Unsolved` — in particular on rosters of the Scenario C shape.  On
`scenario2` (exactly such a roster: `"S3"`'s second subject collides at
every slot) the engine panics: the probe advancement uses the relative
index returned by `position` on the partially-consumed iterator, so the
termination test `next_free_slot == total_slots - 1` is never reached
before the iterator is exhausted, and the `.unwrap()` at line 177 panics
on `None`. -/
theorem c4_panic_not_unsolved :
    solve_timetable scenario2 = .panicked := by
  rfl

/-- C5: the claim asserts that in every `Solved` result each student's
count of non-empty personal entries equals their count of distinct
requested subjects.  On `scenario3` the solve succeeds, but the relative
probe advancement lands student `"S"`'s displacement search for `"X"` on
slot 3 — a slot already holding `"S"`'s entry for `"D"` — and the swap at
lines 210-212 overwrites that entry: `"S"` requests 8 distinct subjects
yet ends with only 7 occupied entries. -/
theorem c5_lost_subject_entry :
    (match solve_timetable scenario3 with
     | .ok (.Solved _ sbsid) =>
       (((sbsid.find? (fun p => p.1 = "S")).map
         (fun p => p.2.countP (fun e => e.isSome))).getD 0)
     | _ => 0) = 7 ∧
    ((scenario3.students.getD 7 ("", [])).2.dedup.length = 8) := by
  exact ⟨rfl, rfl⟩

/-- C6: the claim asserts that re-deriving the slot-to-subjects table from
`slots_by_student_id` (one subject per distinct group occupying the slot)
reproduces `subjects_by_slot` up to ordering.  On `scenario1` the solve
succeeds, but at slot 1 the re-derivation finds `"X"` twice (students
`"SB"`/`"SE"` hold `("X", 1)` there and student `"S"` holds `("X", 0)`
there, the latter because the swap at lines 210-212 recorded the group
index of the displaced `"M"` group for `"X"`), while `subjects_by_slot[1]`
lists `"X"` only once — the group `("X", 0)` actually sits at slot 0. -/
theorem c6_layout_not_idempotent :
    (match solve_timetable scenario1 with
     | .ok (.Solved subjects sbsid) =>
       ((derivedSlotSubjects sbsid 1).count ("X"), (subjects.getD 1 []).count ("X"))
     | _ => (0, 0)) = (2, 1) := by
  rfl

theorem lookupSubj_setSubj_self (r : Registry) (s : String) (gs : List Group) :
    lookupSubj (setSubj r s gs) s = some gs := by
  induction r with
  | nil => simp [setSubj, lookupSubj]
  | cons kv rest ih =>
    by_cases h : kv.1 = s
    · simp [setSubj, lookupSubj, h]
    · simp [setSubj, lookupSubj, h, ih]

theorem length_updateStudent (sts : List Student) (i : Nat) (f : Student → Student) :
    (updateStudent sts i f).length = sts.length := by
  simp [updateStudent]

theorem foldlUpdate_length (f : Student → Student) (idxs : List Nat) :
    ∀ sts : List Student,
      (idxs.foldl (fun sts i => updateStudent sts i f) sts).length = sts.length := by
  induction idxs with
  | nil => intro sts; rfl
  | cons j rest ih =>
    intro sts
    simp only [List.foldl_cons]
    rw [ih, length_updateStudent]

theorem getD_updateStudent_ne (sts : List Student) (i j : Nat) (f : Student → Student)
    (d : Student) (h : i ≠ j) :
    (updateStudent sts j f).getD i d = sts.getD i d := by
  simp only [updateStudent, List.getD, List.get?_eq_getElem?]
  rw [List.getElem?_set_ne (by omega)]

theorem foldlUpdate_getD_notMem (f : Student → Student) (d : Student) (idxs : List Nat) :
    ∀ (sts : List Student) (i : Nat), i ∉ idxs →
      (idxs.foldl (fun sts i => updateStudent sts i f) sts).getD i d = sts.getD i d := by
  induction idxs with
  | nil => intro sts i _; rfl
  | cons j rest ih =>
    intro sts i hi
    simp only [List.foldl_cons]
    rw [ih _ _ (fun h => hi (List.mem_cons_of_mem _ h)),
      getD_updateStudent_ne _ _ _ _ _
        (fun h => hi (by rw [h]; exact List.mem_cons_self _ _))]

theorem getD_updateStudent_self (sts : List Student) (j : Nat) (f : Student → Student)
    (d : Student) (h : j < sts.length) :
    (updateStudent sts j f).getD j d = f (sts.getD j d) := by
  simp only [updateStudent, List.getD, List.get?_eq_getElem?]
  rw [List.getElem?_set_eq_of_lt _ h, List.getElem?_eq_getElem h]
  rfl

theorem foldlUpdate_getD_mem (f : Student → Student) (d : Student) (idxs : List Nat) :
    ∀ (sts : List Student) (i : Nat), idxs.Nodup → (∀ j ∈ idxs, j < sts.length) →
      i ∈ idxs →
      (idxs.foldl (fun sts i => updateStudent sts i f) sts).getD i d =
        f (sts.getD i d) := by
  induction idxs with
  | nil => intro sts i _ _ hi; cases hi
  | cons j rest ih =>
    intro sts i hnd hbound hi
    simp only [List.foldl_cons]
    rcases List.mem_cons.1 hi with rfl | hmem
    · rw [foldlUpdate_getD_notMem _ _ _ _ _ (List.nodup_cons.1 hnd).1]
      exact getD_updateStudent_self _ _ _ _ (hbound _ (List.mem_cons_self _ _))
    · have hne : i ≠ j := fun h => (List.nodup_cons.1 hnd).1 (by rw [← h]; exact hmem)
      rw [ih _ _ (List.nodup_cons.1 hnd).2
        (fun k hk => (length_updateStudent sts j f).symm ▸ hbound k (List.mem_cons_of_mem _ hk))
        hmem]
      rw [getD_updateStudent_ne _ _ _ _ _ hne]

/-- C2 counterexample: the claim asserts that when the chosen candidate's
subject differs from the current one, a *fresh* group of the current
subject is created at the vacated slot during the `make_global` membership
step, rather than the student joining a pre-existing group of that subject
at a different slot.  In `scenario1`, student `"S"` (index 5) reaches
`make_global` with the entry `("X", 0)` at slot 1 (the slot vacated by the
displaced `("M", 0)` group, whose group index 0 was recorded for `"X"`).
Since `"X"` already has a group with index 0 — at slot 0 — `make_global`
pushes the student into that pre-existing group: afterwards `"X"` still
has exactly its 2 old groups, group `("X", 0)` still sits at slot 0 ≠ 1,
and now contains student 5. -/
theorem c2_no_fresh_group_cex :
    scenario1PreS.personal.getD 1 none = some ("X", 0) ∧
    ((lookupSubj scenario1PostS ("X")).getD []).length = 2 ∧
    (((lookupSubj scenario1PostS ("X")).getD []).getD 0 ⟨0, []⟩).slot = 0 ∧
    (((lookupSubj scenario1PostS ("X")).getD []).getD 0 ⟨0, []⟩).student_idxs.contains 5
      = true := by
  refine ⟨rfl, rfl, rfl, rfl⟩

/-- C2 (amended): when rebalancing has selected an acceptable candidate
`(s', g')` with `s' ≠ s` and the candidate group exists in the registry,
then: every member of the group has their entry at the group's previous
slot vacated and their entry at the probe slot set to `(s', g')`; the
group's recorded slot becomes the probe slot; the current student's
probe-slot entry becomes the entry previously at the group's slot (their
`(s', g')` entry); and the vacated slot receives `(s, g')` — the *group
index of the displaced candidate*.  In the subsequent `make_global`
membership step the student therefore joins the pre-existing group of `s`
with index `g'` whenever one exists (at that group's own slot); a fresh
group at the vacated slot is created only when `s` has no group with index
`g'`. -/
theorem c2_rebalance_swap_behavior (gbs : Registry) (personal : Personal)
    (students : List Student) (s s' : String) (g' nfs : Nat)
    (gl : List Group) (gr : Group)
    (hne : s' ≠ s)
    (hlk : lookupSubj gbs s' = some gl)
    (hget : gl.get? g' = some gr)
    (hnd : gr.student_idxs.Nodup)
    (hbound : ∀ i ∈ gr.student_idxs, i < students.length) :
    ∃ gbs2 p2 sts2,
      applyChosen gbs personal students s (s', g') nfs = .ok (gbs2, p2, sts2) ∧
      (∀ i ∈ gr.student_idxs,
        sts2.getD i ⟨[], ""⟩ =
          { slots := (((students.getD i ⟨[], ""⟩).slots.set gr.slot none).set nfs
              (some (s', g'))),
            id := (students.getD i ⟨[], ""⟩).id }) ∧
      lookupSubj gbs2 s' = some (gl.set g' { gr with slot := nfs }) ∧
      p2 = (personal.set nfs (personal.getD gr.slot none)).set gr.slot
        (some (s, g')) ∧
      (∀ (reg : Registry) (i slot : Nat) (gl2 : List Group) (gr2 : Group),
        lookupSubj reg s = some gl2 → gl2.get? g' = some gr2 →
        makeGlobalStep i reg (slot, (s, g')) =
          setSubj reg s
            (gl2.set g' { gr2 with student_idxs := gr2.student_idxs ++ [i] })) := by
  have happ : applyChosen gbs personal students s (s', g') nfs =
      .ok (setSubj gbs s' (gl.set g' { gr with slot := nfs }),
        (personal.set nfs (personal.getD gr.slot none)).set gr.slot (some (s, g')),
        gr.student_idxs.foldl (fun sts i => updateStudent sts i (fun st =>
          { st with slots := ((st.slots.set gr.slot none).set nfs (some (s', g'))) }))
          students) := by
    simp only [applyChosen, hlk, hget, if_neg hne]
  refine ⟨_, _, _, happ, ?_, lookupSubj_setSubj_self _ _ _, rfl, ?_⟩
  · intro i hi
    rw [foldlUpdate_getD_mem _ _ _ _ _ hnd hbound hi]
  · intro reg i slot gl2 gr2 hlk2 hget2
    simp only [makeGlobalStep, hlk2, Option.getD_some, hget2]

/-- Witness for `c2_rebalance_swap_behavior`, at the concrete instance
reached in `scenario1` (registry holding group `("M", 0)` at slot 1 with
member 0, student `"S"` placing `"X"` with probe slot 2). -/
theorem c2_rebalance_swap_behavior_witness :
    ("M" ≠ "X") ∧
    lookupSubj [("M", [⟨1, [0]⟩])] "M" = some [⟨1, [0]⟩] ∧
    ([(⟨1, [0]⟩ : Group)].get? 0 = some ⟨1, [0]⟩) ∧
    ([0] : List Nat).Nodup ∧
    (∀ i ∈ ([0] : List Nat),
      i < ([⟨[some ("X", 0), some ("M", 0), none], "SA"⟩] : List Student).length) ∧
    (∃ gbs2 p2 sts2,
      applyChosen [("M", [⟨1, [0]⟩])] [some ("P", 0), some ("M", 0), none]
          [⟨[some ("X", 0), some ("M", 0), none], "SA"⟩] "X" ("M", 0) 2 =
        .ok (gbs2, p2, sts2) ∧
      (∀ i ∈ ([0] : List Nat),
        sts2.getD i ⟨[], ""⟩ =
          { slots := ((((([⟨[some ("X", 0), some ("M", 0), none], "SA"⟩] :
                List Student).getD i ⟨[], ""⟩).slots.set 1 none).set 2
              (some ("M", 0)))),
            id := (([⟨[some ("X", 0), some ("M", 0), none], "SA"⟩] :
              List Student).getD i ⟨[], ""⟩).id }) ∧
      lookupSubj gbs2 ("M") = some ([⟨1, [0]⟩].set 0 ⟨2, [0]⟩) ∧
      p2 = (([some ("P", 0), some ("M", 0), none] : Personal).set 2
        (([some ("P", 0), some ("M", 0), none] : Personal).getD 1 none)).set 1
          (some ("X", 0)) ∧
      (∀ (reg : Registry) (i slot : Nat) (gl2 : List Group) (gr2 : Group),
        lookupSubj reg ("X") = some gl2 → gl2.get? 0 = some gr2 →
        makeGlobalStep i reg (slot, ("X", 0)) =
          setSubj reg ("X")
            (gl2.set 0 { gr2 with student_idxs := gr2.student_idxs ++ [i] }))) := by
  refine ⟨by decide, rfl, rfl, by decide, by decide, ?_⟩
  exact c2_rebalance_swap_behavior [("M", [⟨1, [0]⟩])]
    [some ("P", 0), some ("M", 0), none]
    [⟨[some ("X", 0), some ("M", 0), none], "SA"⟩] "X" "M" 0 2
    [⟨1, [0]⟩] ⟨1, [0]⟩ (by decide) rfl rfl (by decide) (by decide)

theorem tryAssignAux_eq_specFindFreeAux (subject : String) (personal : Personal) :
    ∀ (gs : List Group) (k : Nat),
      tryAssignAux subject personal gs k =
        (specFindFreeAux personal gs k).map
          (fun ig => personal.set ig.2.slot (some (subject, ig.1))) := by
  intro gs
  induction gs with
  | nil => intro k; rfl
  | cons g rest ih =>
    intro k
    by_cases h : (personal.getD g.slot none).isSome
    · simp only [tryAssignAux, specFindFreeAux, if_pos h, ih]
    · simp only [tryAssignAux, specFindFreeAux, if_neg h, Option.map_some']

/-- C7: `try_assign_group_lazily` scans the subject's existing groups in
creation (list) order and succeeds on the first group whose assigned slot
is empty in the student's personal array, occupying that slot with
`(subject, group index)`; when no group of the subject has a free slot (in
particular when the subject has no groups) it fails and leaves the
personal array (and the registry, which it never writes) unchanged.  This
is stated as agreement with `specFindFree`, the spec's
`find_group_with_free_slot` scan; the hypothesis restricts to group slots
within the bounds of the personal array, where the Rust indexing
`personal_slots[group.slot]` is defined. -/
theorem c7_lazy_assign_first_free (gbs : Registry) (personal : Personal)
    (subject : String)
    (hbound : ∀ g ∈ (lookupSubj gbs subject).getD [], g.slot < personal.length) :
    try_assign_group_lazily gbs personal subject =
      (specFindFree gbs personal subject).map
        (fun ig => personal.set ig.2.slot (some (subject, ig.1))) := by
  exact tryAssignAux_eq_specFindFreeAux subject personal _ 0

/-- Witness for `c7_lazy_assign_first_free`: subject `"M"` has two groups,
at slots 0 and 1; slot 0 is taken by another subject, so the scan settles
on the second group, occupying slot 1 with `("M", 1)`. -/
theorem c7_lazy_assign_first_free_witness :
    (∀ g ∈ (lookupSubj [("M", [⟨0, []⟩, ⟨1, []⟩])] "M").getD [],
      g.slot < ([some ("A", 0), none] : Personal).length) ∧
    try_assign_group_lazily [("M", [⟨0, []⟩, ⟨1, []⟩])]
        [some ("A", 0), none] "M" =
      (specFindFree [("M", [⟨0, []⟩, ⟨1, []⟩])] [some ("A", 0), none] "M").map
        (fun ig => ([some ("A", 0), none] : Personal).set ig.2.slot
          (some ("M", ig.1))) :=
  ⟨by decide, c7_lazy_assign_first_free [("M", [⟨0, []⟩, ⟨1, []⟩])]
    [some ("A", 0), none] "M" (by decide)⟩

/-- C9 counterexample: the claim asserts that for *every* registry state
`attendance` returns the group's member count, or 0 when the group index
does not exist.  When the candidate's *subject* has no entry in the map at
all, the map indexing `groups_by_subject[candidate.0]` panics instead of
returning anything — modelled by `none`. -/
theorem c9_attendance_missing_subject_cex :
    attendance ("A", 0) [] = none := by
  rfl

/-- C9 (amended): provided the candidate's subject is present in the
registry, `attendance` returns the member count of the group with the
candidate's index, and 0 when that index does not exist in the subject's
group list; it performs no mutation (it is a pure function of the
registry).  When the subject is absent, the map indexing panics. -/
theorem c9_attendance_present (c : String × Nat) (gbs : Registry)
    (gl : List Group) (h : lookupSubj gbs c.1 = some gl) :
    (∀ g, gl.get? c.2 = some g → attendance c gbs = some g.student_idxs.length) ∧
    (gl.get? c.2 = none → attendance c gbs = some 0) := by
  constructor
  · intro g hg
    simp only [attendance, h, Option.map_some', hg, Option.getD_some]
  · intro hn
    simp only [attendance, h, Option.map_some', hn, Option.map_none', Option.getD_none]

/-- Witness for `c9_attendance_present`: subject `"M"` present with one
group of two members; index 0 exists (count 2), index 3 does not (count 0). -/
theorem c9_attendance_present_witness :
    lookupSubj [("M", [⟨0, [1, 2]⟩])] "M" = some [⟨0, [1, 2]⟩] ∧
    attendance ("M", 0) [("M", [⟨0, [1, 2]⟩])] = some 2 ∧
    attendance ("M", 3) [("M", [⟨0, [1, 2]⟩])] = some 0 :=
  ⟨rfl,
    (c9_attendance_present ("M", 0) [("M", [⟨0, [1, 2]⟩])] [⟨0, [1, 2]⟩] rfl).1
      ⟨0, [1, 2]⟩ rfl,
    (c9_attendance_present ("M", 3) [("M", [⟨0, [1, 2]⟩])] [⟨0, [1, 2]⟩] rfl).2 rfl⟩

/-- C10: `solve_timetable` computes the week's slot count as
`daily_lesson_capacity * 5` in `u8` arithmetic (`totalSlots`, reduced
modulo 2^8).  For every `daily_lesson_capacity >= 52` (any `u8` value up
to 255) the true product exceeds 255, so the wrapped slot count differs
from `daily_lesson_capacity * 5`, and the personal slot arrays
(`List.replicate (totalSlots d) none` in `solveLoop`) and the
`subjects_by_slot` table (`List.replicate (totalSlots d) []` in
`invertRegistry`) do not have length `daily_lesson_capacity * 5`, even
though the stated preconditions only require `daily_lesson_capacity >= 1`. -/
theorem c10_total_slots_overflow (d : Nat) (h52 : 52 ≤ d) (h255 : d ≤ 255) :
    255 < d * 5 ∧
    totalSlots d ≠ d * 5 ∧
    (List.replicate (totalSlots d) (none : Option (String × Nat))).length ≠ d * 5 ∧
    (List.replicate (totalSlots d) ([] : List String)).length ≠ d * 5 := by
  have h1 : 255 < d * 5 := by omega
  have h2 : totalSlots d < d * 5 := by
    have : totalSlots d < 256 := Nat.mod_lt _ (by norm_num)
    omega
  exact ⟨h1, by omega, by simpa using by omega, by simpa using by omega⟩

/-- Witness for `c10_total_slots_overflow` at
`daily_lesson_capacity = 52`: the `u8` product wraps to 4. -/
theorem c10_total_slots_overflow_witness :
    52 ≤ 52 ∧ 52 ≤ 255 ∧
    (255 < 52 * 5 ∧ totalSlots 52 ≠ 52 * 5 ∧
      (List.replicate (totalSlots 52) (none : Option (String × Nat))).length ≠ 52 * 5 ∧
      (List.replicate (totalSlots 52) ([] : List String)).length ≠ 52 * 5) :=
  ⟨by decide, by decide, c10_total_slots_overflow 52 (by decide) (by decide)⟩

/-! ### Lemmas about `swapC` -/

theorem length_swapC (l : List (String × Nat)) (i j : Int) :
    (swapC l i j).length = l.length := by
  simp [swapC]

theorem getC_swapC_right (l : List (String × Nat)) (i j : Int)
    (hj0 : 0 ≤ j) (hj : j < (l.length : Int)) :
    getC (swapC l i j) j = getC l i := by
  simp only [swapC, getC, List.getD, List.get?_eq_getElem?]
  rw [List.getElem?_set_eq_of_lt]
  · rfl
  · simp only [List.length_set]; omega

theorem getC_swapC_left (l : List (String × Nat)) (i j : Int)
    (hi0 : 0 ≤ i) (hi : i < (l.length : Int)) (hj0 : 0 ≤ j) (hne : i ≠ j) :
    getC (swapC l i j) i = getC l j := by
  simp only [swapC, getC, List.getD, List.get?_eq_getElem?]
  rw [List.getElem?_set_ne (by omega), List.getElem?_set_eq_of_lt _ (by omega)]
  rfl

theorem getC_swapC_other (l : List (String × Nat)) (i j k : Int)
    (hi0 : 0 ≤ i) (hj0 : 0 ≤ j) (hk0 : 0 ≤ k) (hki : k ≠ i) (hkj : k ≠ j) :
    getC (swapC l i j) k = getC l k := by
  simp only [swapC, getC, List.getD, List.get?_eq_getElem?]
  rw [List.getElem?_set_ne (by omega), List.getElem?_set_ne (by omega)]

theorem headSwap_perm {α : Type} (x d : α) :
    ∀ (t : List α) (m : Nat), m < t.length →
      ((t.getD m d) :: (t.set m x)).Perm (x :: t) := by
  intro t
  induction t with
  | nil => intro m hm; simp at hm
  | cons y s ih =>
    intro m hm
    cases m with
    | zero => exact List.Perm.swap x y s
    | succ m' =>
      have hm' : m' < s.length := by simpa using hm
      have hrw : ((y :: s).getD (m' + 1) d) :: ((y :: s).set (m' + 1) x)
          = (s.getD m' d) :: y :: (s.set m' x) := by simp [List.getD]
      rw [hrw]
      exact (List.Perm.swap y (s.getD m' d) (s.set m' x)).trans
        ((List.Perm.cons y (ih m' hm')).trans (List.Perm.swap x y s))

theorem set_set_perm {α : Type} (d : α) :
    ∀ (l : List α) (i j : Nat), i < l.length → j < l.length →
      ((l.set i (l.getD j d)).set j (l.getD i d)).Perm l := by
  intro l
  induction l with
  | nil => intro i j hi _; simp at hi
  | cons x t ih =>
    intro i j hi hj
    cases i with
    | zero =>
      cases j with
      | zero => simp
      | succ m =>
        have hm : m < t.length := by simpa using hj
        have hrw : ((x :: t).set 0 ((x :: t).getD (m + 1) d)).set (m + 1)
              ((x :: t).getD 0 d)
            = (t.getD m d) :: (t.set m x) := by simp [List.getD]
        rw [hrw]
        exact headSwap_perm x d t m hm
    | succ n =>
      cases j with
      | zero =>
        have hn : n < t.length := by simpa using hi
        have hrw : ((x :: t).set (n + 1) ((x :: t).getD 0 d)).set 0
              ((x :: t).getD (n + 1) d)
            = (t.getD n d) :: (t.set n x) := by simp [List.getD]
        rw [hrw]
        exact headSwap_perm x d t n hn
      | succ m =>
        have hn : n < t.length := by simpa using hi
        have hm : m < t.length := by simpa using hj
        have hrw : ((x :: t).set (n + 1) ((x :: t).getD (m + 1) d)).set (m + 1)
              ((x :: t).getD (n + 1) d)
            = x :: ((t.set n (t.getD m d)).set m (t.getD n d)) := by simp [List.getD]
        rw [hrw]
        exact List.Perm.cons _ (ih n m hn hm)

theorem swapC_perm (l : List (String × Nat)) (i j : Int)
    (hi0 : 0 ≤ i) (hi : i < (l.length : Int)) (hj0 : 0 ≤ j) (hj : j < (l.length : Int)) :
    (swapC l i j).Perm l :=
  set_set_perm ("", 0) l i.toNat j.toNat (by omega) (by omega)

/-! ### Specifications of the partition loop -/

theorem attendance_eq_some (c : String × Nat) (gbs : Registry)
    (h : (lookupSubj gbs c.1).isSome) :
    attendance c gbs = some (attendanceD c gbs) := by
  cases hl : lookupSubj gbs c.1 with
  | none => rw [hl] at h; simp at h
  | some gs => simp [attendance, attendanceD, hl]

theorem advanceLow_spec (l : List (String × Nat)) (gbs : Registry) (pivot : Nat) :
    ∀ (fuel : Nat) (low high : Int),
      (high + 1 - low).toNat < fuel → low ≤ high + 1 →
      (∀ i : Int, low ≤ i → i ≤ high → (lookupSubj gbs (getC l i).1).isSome) →
      ∃ low', advanceLow l gbs pivot low high fuel = .ok low' ∧
        low ≤ low' ∧ low' ≤ high + 1 ∧
        (∀ i : Int, low ≤ i → i < low' → attendanceD (getC l i) gbs ≤ pivot) ∧
        (low' ≤ high → pivot < attendanceD (getC l low') gbs) := by
  intro fuel
  induction fuel with
  | zero => intro low high hfuel _ _; omega
  | succ fuel ih =>
    intro low high hfuel hlow hpres
    by_cases hc : low ≤ high
    · have hat := attendance_eq_some (getC l low) gbs (hpres low (le_refl _) hc)
      by_cases hle : attendanceD (getC l low) gbs ≤ pivot
      · obtain ⟨low', heq, h1, h2, h3, h4⟩ := ih (low + 1) high (by omega)
          (by omega) (fun i hi1 hi2 => hpres i (by omega) hi2)
        refine ⟨low', ?_, by omega, h2, ?_, h4⟩
        · simp only [advanceLow, if_pos hc, hat, if_pos hle]
          exact heq
        · intro i hi1 hi2
          rcases eq_or_lt_of_le hi1 with heq' | hlt
          · rw [← heq']
            exact hle
          · exact h3 i (by omega) hi2
      · refine ⟨low, ?_, le_refl _, by omega, ?_, ?_⟩
        · simp only [advanceLow, if_pos hc, hat, if_neg hle]
        · intro i hi1 hi2; omega
        · intro _; omega
    · refine ⟨low, ?_, le_refl _, by omega, ?_, ?_⟩
      · simp only [advanceLow, if_neg hc]
      · intro i hi1 hi2; omega
      · intro hle2; omega

theorem lowerHigh_spec (l : List (String × Nat)) (gbs : Registry) (pivot : Nat) :
    ∀ (fuel : Nat) (low high : Int),
      (high + 1 - low).toNat < fuel → low - 1 ≤ high →
      (∀ i : Int, low ≤ i → i ≤ high → (lookupSubj gbs (getC l i).1).isSome) →
      ∃ high', lowerHigh l gbs pivot low high fuel = .ok high' ∧
        low - 1 ≤ high' ∧ high' ≤ high ∧
        (∀ i : Int, high' < i → i ≤ high → pivot ≤ attendanceD (getC l i) gbs) ∧
        (low ≤ high' → attendanceD (getC l high') gbs < pivot) := by
  intro fuel
  induction fuel with
  | zero => intro low high hfuel _ _; omega
  | succ fuel ih =>
    intro low high hfuel hhigh hpres
    by_cases hc : low ≤ high
    · have hat := attendance_eq_some (getC l high) gbs (hpres high hc (le_refl _))
      by_cases hge : pivot ≤ attendanceD (getC l high) gbs
      · obtain ⟨high', heq, h1, h2, h3, h4⟩ := ih low (high - 1) (by omega)
          (by omega) (fun i hi1 hi2 => hpres i hi1 (by omega))
        refine ⟨high', ?_, h1, by omega, ?_, h4⟩
        · simp only [lowerHigh, if_pos hc, hat, if_pos hge]
          exact heq
        · intro i hi1 hi2
          rcases eq_or_lt_of_le hi2 with heq' | hlt
          · rw [heq']
            exact hge
          · exact h3 i hi1 (by omega)
      · refine ⟨high, ?_, by omega, le_refl _, ?_, ?_⟩
        · simp only [lowerHigh, if_pos hc, hat, if_neg hge]
        · intro i hi1 hi2; omega
        · intro _; omega
    · refine ⟨high, ?_, by omega, le_refl _, ?_, ?_⟩
      · simp only [lowerHigh, if_neg hc]
      · intro i hi1 hi2; omega
      · intro hle2; omega

theorem partitionLoop_spec (gbs : Registry) (pivot : Nat) :
    ∀ (fuel : Nat) (l : List (String × Nat)) (low high : Int),
      (high + 2 - low).toNat ≤ fuel → 0 ≤ low → low ≤ high →
      high < (l.length : Int) →
      (∀ i : Int, low ≤ i → i ≤ high → (lookupSubj gbs (getC l i).1).isSome) →
      ∃ out hm, partitionLoop l gbs pivot low high fuel = .ok (out, hm) ∧
        out.length = l.length ∧ out.Perm l ∧
        (∀ i : Int, 0 ≤ i → (i < low ∨ high < i) → getC out i = getC l i) ∧
        low - 1 ≤ hm ∧ hm ≤ high ∧
        (∀ i : Int, low ≤ i → i ≤ hm → attendanceD (getC out i) gbs ≤ pivot) ∧
        (∀ i : Int, hm < i → i ≤ high → pivot ≤ attendanceD (getC out i) gbs) ∧
        (∀ P : (String × Nat) → Prop,
          (∀ i : Int, low ≤ i → i ≤ high → P (getC l i)) →
          (∀ i : Int, low ≤ i → i ≤ high → P (getC out i))) := by
  intro fuel
  induction fuel with
  | zero => intro l low high hfuel _ hlh _ _; omega
  | succ fuel ih =>
    intro l low high hfuel hlow0 hlh hhi hpres
    obtain ⟨low', haL, hl1, hl2, hregA, hexA⟩ :=
      advanceLow_spec l gbs pivot (l.length + 1) low high (by omega) (by omega)
        hpres
    obtain ⟨high', hlH, hh1, hh2, hregH, hexH⟩ :=
      lowerHigh_spec l gbs pivot (l.length + 1) low' high (by omega) (by omega)
        (fun i hi1 hi2 => hpres i (by omega) hi2)
    have hstep : partitionLoop l gbs pivot low high (fuel + 1) =
        if low' < high' then
          partitionLoop (swapC l low' high') gbs pivot (low' + 1) high' fuel
        else .ok (l, high') := by
      simp only [partitionLoop, haL, hlH]
    by_cases hlt : low' < high'
    · -- the loop swaps and continues
      have hlen2 : ((swapC l low' high').length : Int) = (l.length : Int) := by
        rw [length_swapC]
      have hswL : getC (swapC l low' high') low' = getC l high' :=
        getC_swapC_left l low' high' (by omega) (by omega) (by omega) (by omega)
      have hswR : getC (swapC l low' high') high' = getC l low' :=
        getC_swapC_right l low' high' (by omega) (by omega)
      have hswO : ∀ k : Int, 0 ≤ k → k ≠ low' → k ≠ high' →
          getC (swapC l low' high') k = getC l k := by
        intro k hk0 hk1 hk2
        exact getC_swapC_other l low' high' k (by omega) (by omega) hk0 hk1 hk2
      have hpres' : ∀ i : Int, low' + 1 ≤ i → i ≤ high' →
          (lookupSubj gbs (getC (swapC l low' high') i).1).isSome := by
        intro i hi1 hi2
        by_cases hih : i = high'
        · rw [hih, hswR]
          exact hpres low' (by omega) (by omega)
        · rw [hswO i (by omega) (by omega) hih]
          exact hpres i (by omega) (by omega)
      obtain ⟨out, hm, heq, hlen, hperm, houtside, hm1, hm2, hle, hge, hseg⟩ :=
        ih (swapC l low' high') (low' + 1) high' (by omega) (by omega) (by omega)
          (by omega) hpres'
      refine ⟨out, hm, ?_, ?_, ?_, ?_, by omega, by omega, ?_, ?_, ?_⟩
      · rw [hstep, if_pos hlt]
        exact heq
      · rw [hlen, length_swapC]
      · exact hperm.trans (swapC_perm l low' high' (by omega) (by omega)
          (by omega) (by omega))
      · -- positions outside [low, high] are untouched
        intro i hi0 hout
        have h1 : getC out i = getC (swapC l low' high') i := by
          apply houtside i hi0
          omega
        rw [h1, hswO i hi0 (by omega) (by omega)]
      · -- [low, hm] is ≤ pivot
        intro i hi1 hi2
        by_cases hcase : low' + 1 ≤ i
        · exact hle i hcase hi2
        · have hi' : i ≤ low' := by omega
          have hfix : getC out i = getC (swapC l low' high') i := by
            apply houtside i (by omega)
            omega
          rcases eq_or_lt_of_le hi' with heq' | hlt'
          · rw [hfix, heq', hswL]
            have := hexH (by omega)
            omega
          · rw [hfix, hswO i (by omega) (by omega) (by omega)]
            exact hregA i hi1 hlt'
      · -- (hm, high] is ≥ pivot
        intro i hi1 hi2
        by_cases hcase : i ≤ high'
        · exact hge i hi1 hcase
        · have hfix : getC out i = getC (swapC l low' high') i := by
            apply houtside i (by omega)
            omega
          rw [hfix, hswO i (by omega) (by omega) (by omega)]
          exact hregH i (by omega) hi2
      · -- pointwise properties of the segment are preserved
        intro P hP i hi1 hi2
        by_cases hcase : low' + 1 ≤ i ∧ i ≤ high'
        · apply hseg P _ i hcase.1 hcase.2
          intro k hk1 hk2
          rcases eq_or_lt_of_le hk2 with hkeq | hklt
          · rw [hkeq, hswR]
            exact hP low' hl1 (by omega)
          · rw [hswO k (by omega) (by omega) (by omega)]
            exact hP k (by omega) (by omega)
        · have hfix : getC out i = getC (swapC l low' high') i := by
            apply houtside i (by omega)
            omega
          rw [hfix]
          by_cases hieq : i = low'
          · rw [hieq, hswL]
            exact hP high' (by omega) (by omega)
          · rw [hswO i (by omega) hieq (by omega)]
            exact hP i hi1 hi2
    · -- the loop exits: hm = high'
      refine ⟨l, high', ?_, rfl, List.Perm.refl l, fun i _ _ => rfl, by omega,
        hh2, ?_, ?_, fun P hP i hi1 hi2 => hP i hi1 hi2⟩
      · rw [hstep, if_neg hlt]
      · intro i hi1 hi2
        by_cases hcase : i < low'
        · exact hregA i hi1 hcase
        · have h1 : low' ≤ high' := by omega
          have h2 : i = high' := by omega
          have := hexH h1
          rw [h2]
          omega
      · intro i hi1 hi2
        exact hregH i hi1 hi2

theorem sortAux_spec (gbs : Registry) :
    ∀ (fuel : Nat) (l : List (String × Nat)) (start stop : Int),
      (stop + 1 - start).toNat < fuel → 0 ≤ start → stop < (l.length : Int) →
      (∀ i : Int, start ≤ i → i ≤ stop → (lookupSubj gbs (getC l i).1).isSome) →
      ∃ out, sortAux gbs fuel l start stop = .ok out ∧
        out.length = l.length ∧ out.Perm l ∧
        (∀ i : Int, 0 ≤ i → (i < start ∨ stop < i) → getC out i = getC l i) ∧
        (∀ i j : Int, start ≤ i → i ≤ j → j ≤ stop →
          attendanceD (getC out i) gbs ≤ attendanceD (getC out j) gbs) ∧
        (∀ P : (String × Nat) → Prop,
          (∀ i : Int, start ≤ i → i ≤ stop → P (getC l i)) →
          (∀ i : Int, start ≤ i → i ≤ stop → P (getC out i))) := by
  intro fuel
  induction fuel with
  | zero => intro l start stop hfuel _ _ _; omega
  | succ fuel ih =>
    intro l start stop hfuel hst0 hstop hpres
    by_cases hbase : start ≥ stop
    · refine ⟨l, ?_, rfl, List.Perm.refl l, fun i _ _ => rfl, ?_,
        fun P hP i hi1 hi2 => hP i hi1 hi2⟩
      · simp only [sortAux, if_pos hbase]
      · intro i j hi hij hj
        have : i = j := by omega
        rw [this]
    · -- start < stop: evaluate the pivot attendance (present, so no panic)
      have hatp := attendance_eq_some (getC l start) gbs
        (hpres start (le_refl _) (by omega))
      obtain ⟨l1, hm, hpeq, hplen, hpperm, hpout, hpm1, hpm2, hple, hpge, hpseg⟩ :=
        partitionLoop_spec gbs (attendanceD (getC l start) gbs) (l.length + 2) l
          (start + 1) stop (by omega) (by omega) (by omega) (by omega)
          (fun i hi1 hi2 => hpres i (by omega) hi2)
      set pivot := attendanceD (getC l start) gbs with hpivot
      -- the pivot element is untouched by the partition
      have hl1start : getC l1 start = getC l start := hpout start hst0 (by omega)
      have hl1len : ((l1.length : Int)) = (l.length : Int) := by rw [hplen]
      -- the swap that plants the pivot between the two regions
      have hswstart : getC (swapC l1 start hm) start = getC l1 hm := by
        by_cases hse : start = hm
        · rw [← hse]
          exact getC_swapC_right l1 start start hst0 (by omega)
        · exact getC_swapC_left l1 start hm hst0 (by omega) (by omega) hse
      have hswhm : getC (swapC l1 start hm) hm = getC l1 start :=
        getC_swapC_right l1 start hm (by omega) (by omega)
      have hswother : ∀ k : Int, 0 ≤ k → k ≠ start → k ≠ hm →
          getC (swapC l1 start hm) k = getC l1 k := by
        intro k hk0 hk1 hk2
        exact getC_swapC_other l1 start hm k hst0 (by omega) hk0 hk1 hk2
      have hswlen : ((swapC l1 start hm).length : Int) = (l.length : Int) := by
        rw [length_swapC, hplen]
      -- any pointwise property of the segment [start, stop] of l carries
      -- over to l1 and then to the swapped list
      have hPl1 : ∀ P : (String × Nat) → Prop,
          (∀ k : Int, start ≤ k → k ≤ stop → P (getC l k)) →
          ∀ k : Int, start ≤ k → k ≤ stop → P (getC l1 k) := by
        intro P hP k hk1 hk2
        rcases eq_or_lt_of_le hk1 with hkeq | hklt
        · rw [← hkeq, hl1start]
          exact hP start (le_refl _) (by omega)
        · exact hpseg P (fun m hm1 hm2 => hP m (by omega) hm2) k (by omega) hk2
      have hPsw : ∀ P : (String × Nat) → Prop,
          (∀ k : Int, start ≤ k → k ≤ stop → P (getC l1 k)) →
          ∀ k : Int, start ≤ k → k ≤ stop → P (getC (swapC l1 start hm) k) := by
        intro P hP k hk1 hk2
        by_cases hk : k = start
        · rw [hk, hswstart]
          exact hP hm (by omega) (by omega)
        · by_cases hk2' : k = hm
          · rw [hk2', hswhm]
            exact hP start (le_refl _) (by omega)
          · rw [hswother k (by omega) hk hk2']
            exact hP k hk1 hk2
      have hpresSW : ∀ k : Int, start ≤ k → k ≤ stop →
          (lookupSubj gbs (getC (swapC l1 start hm) k).1).isSome :=
        hPsw (fun c => (lookupSubj gbs c.1).isSome)
          (hPl1 (fun c => (lookupSubj gbs c.1).isSome) hpres)
      -- region facts for the swapped list
      have hswle : ∀ i : Int, start ≤ i → i ≤ hm - 1 →
          attendanceD (getC (swapC l1 start hm) i) gbs ≤ pivot := by
        intro i hi1 hi2
        rcases eq_or_lt_of_le hi1 with heq' | hlt'
        · rw [← heq', hswstart]
          exact hple hm (by omega) (le_refl _)
        · rw [hswother i (by omega) (by omega) (by omega)]
          exact hple i (by omega) (by omega)
      have hswpiv : attendanceD (getC (swapC l1 start hm) hm) gbs = pivot := by
        rw [hswhm, hl1start]
      have hswge : ∀ i : Int, hm < i → i ≤ stop →
          attendanceD (getC (swapC l1 start hm) i) gbs ≥ pivot := by
        intro i hi1 hi2
        rw [hswother i (by omega) (by omega) (by omega)]
        exact hpge i hi1 hi2
      -- left recursive sort
      obtain ⟨l3, hleq, hllen, hlperm, hlout, hlsorted, hlseg⟩ :=
        ih (swapC l1 start hm) start (hm - 1) (by omega) hst0
          (by rw [hswlen]; omega)
          (fun k hk1 hk2 => hpresSW k hk1 (by omega))
      have hl3len : ((l3.length : Int)) = (l.length : Int) := by
        rw [hllen, hswlen]
      -- pointwise segment properties carry over to l3
      have hPl3 : ∀ P : (String × Nat) → Prop,
          (∀ k : Int, start ≤ k → k ≤ stop → P (getC (swapC l1 start hm) k)) →
          ∀ k : Int, start ≤ k → k ≤ stop → P (getC l3 k) := by
        intro P hP k hk1 hk2
        by_cases hk : k ≤ hm - 1
        · exact hlseg P (fun m hm1 hm2 => hP m hm1 (by omega)) k hk1 hk
        · rw [hlout k (by omega) (by omega)]
          exact hP k hk1 hk2
      have hpresL3 : ∀ k : Int, start ≤ k → k ≤ stop →
          (lookupSubj gbs (getC l3 k).1).isSome :=
        hPl3 (fun c => (lookupSubj gbs c.1).isSome) hpresSW
      -- right recursive sort
      obtain ⟨out, hreq, hrlen, hrperm, hrout, hrsorted, hrseg⟩ :=
        ih l3 (hm + 1) stop (by omega) (by omega) (by rw [hl3len]; omega)
          (fun k hk1 hk2 => hpresL3 k (by omega) hk2)
      -- the computation takes exactly this path
      have hstep : sortAux gbs (fuel + 1) l start stop = .ok out := by
        simp only [sortAux, if_neg hbase, hatp, hpeq, hleq, hreq]
      -- region facts for l3
      have hl3le : ∀ i : Int, start ≤ i → i ≤ hm - 1 →
          attendanceD (getC l3 i) gbs ≤ pivot := by
        intro i hi1 hi2
        exact hlseg (fun c => attendanceD c gbs ≤ pivot) hswle i hi1 hi2
      have hl3piv : attendanceD (getC l3 hm) gbs = pivot := by
        rw [hlout hm (by omega) (by omega), hswpiv]
      have hl3ge : ∀ i : Int, hm < i → i ≤ stop →
          attendanceD (getC l3 i) gbs ≥ pivot := by
        intro i hi1 hi2
        rw [hlout i (by omega) (by omega)]
        exact hswge i hi1 hi2
      -- region facts for out
      have houtle : ∀ i : Int, start ≤ i → i ≤ hm - 1 →
          attendanceD (getC out i) gbs ≤ pivot := by
        intro i hi1 hi2
        rw [hrout i (by omega) (by omega)]
        exact hl3le i hi1 hi2
      have houtpiv : attendanceD (getC out hm) gbs = pivot := by
        rw [hrout hm (by omega) (by omega), hl3piv]
      have houtge : ∀ i : Int, hm < i → i ≤ stop →
          attendanceD (getC out i) gbs ≥ pivot := by
        intro i hi1 hi2
        exact hrseg (fun c => pivot ≤ attendanceD c gbs) hl3ge i (by omega) hi2
      refine ⟨out, hstep, ?_, ?_, ?_, ?_, ?_⟩
      · rw [hrlen, hllen, length_swapC, hplen]
      · exact hrperm.trans (hlperm.trans
          ((swapC_perm l1 start hm hst0 (by omega) (by omega) (by omega)).trans
            hpperm))
      · -- positions outside [start, stop] are untouched
        intro i hi0 hiout
        rw [hrout i hi0 (by omega), hlout i hi0 (by omega),
          hswother i hi0 (by omega) (by omega), hpout i hi0 (by omega)]
      · -- sortedness of the whole segment
        intro i j hi hij hj
        by_cases hi' : i ≤ hm - 1
        · by_cases hj' : j ≤ hm - 1
          · rw [hrout i (by omega) (by omega), hrout j (by omega) (by omega)]
            exact hlsorted i j hi hij hj'
          · have h1 : attendanceD (getC out i) gbs ≤ pivot := houtle i hi hi'
            by_cases hj'' : j = hm
            · rw [hj'', houtpiv]
              exact h1
            · have h2 : pivot ≤ attendanceD (getC out j) gbs :=
                houtge j (by omega) hj
              omega
        · by_cases hi'' : i = hm
          · by_cases hj'' : j = hm
            · rw [hi'', hj'']
            · have h2 : pivot ≤ attendanceD (getC out j) gbs :=
                houtge j (by omega) hj
              rw [hi'', houtpiv]
              exact h2
          · exact hrsorted i j (by omega) hij hj
      · -- pointwise properties of the segment are preserved
        intro P hP i hi1 hi2
        have hPL3 := hPl3 P (hPsw P (hPl1 P hP))
        by_cases hk : hm + 1 ≤ i
        · exact hrseg P (fun m hm1 hm2 => hPL3 m (by omega) hm2) i hk hi2
        · rw [hrout i (by omega) (by omega)]
          exact hPL3 i hi1 hi2

/-- C8 counterexample: the claim quantifies over every candidate list and
registry state and asserts that the whole-list sort terminates with an
ascending permutation.  But the sort's very first step evaluates
`attendance(candidates[0], ..)`, whose map indexing
`groups_by_subject[candidate.0]` panics when the candidate's subject has
no entry in the registry: on the two-candidate list below with an empty
registry the sort panics instead of returning anything. -/
theorem c8_sort_missing_subject_cex :
    sort_by_ascending_attendance [("A", 0), ("B", 0)] [] 0 1 = .panicked := by
  rfl

/-- C8 (amended): for every candidate list and registry state in which
every candidate's subject is present in the registry (always the case at
the call site in `handle_subjects`), the sort invoked over the whole list
(`start = 0`, `end = candidates.len() as i32 - 1`) terminates — neither
panicking nor exhausting its fuel — and rearranges the list into a
permutation of its input ordered by attendance ascending; `attendanceD` is
exactly the value `attendance` returns on these candidates (last
conjunct).  No tie order among equal-attendance candidates is asserted.
When an examined candidate's subject is absent, the attendance lookup
panics instead (`c8_sort_missing_subject_cex`). -/
theorem c8_sort_perm_sorted (candidates : List (String × Nat)) (gbs : Registry)
    (hpres : ∀ c ∈ candidates, (lookupSubj gbs c.1).isSome) :
    ∃ out,
      sort_by_ascending_attendance candidates gbs 0 ((candidates.length : Int) - 1) =
        .ok out ∧
      candidates.Perm out ∧
      List.Sorted (fun a b => attendanceD a gbs ≤ attendanceD b gbs) out ∧
      (∀ c ∈ candidates, attendance c gbs = some (attendanceD c gbs)) := by
  have hmem : ∀ i : Int, 0 ≤ i → i ≤ (candidates.length : Int) - 1 →
      getC candidates i ∈ candidates := by
    intro i hi1 hi2
    have hlt : i.toNat < candidates.length := by omega
    have hgc : getC candidates i = candidates[i.toNat] := by
      simp [getC, List.getD, List.get?_eq_getElem?, List.getElem?_eq_getElem hlt]
    rw [hgc]
    exact List.getElem_mem hlt
  obtain ⟨out, heq, hlen, hperm, _, hsorted, _⟩ :=
    sortAux_spec gbs (candidates.length + 1) candidates 0
      ((candidates.length : Int) - 1) (by omega) (le_refl _) (by omega)
      (fun i hi1 hi2 => hpres (getC candidates i) (hmem i hi1 hi2))
  refine ⟨out, heq, hperm.symm, ?_, fun c hc => attendance_eq_some c gbs (hpres c hc)⟩
  have hgc : ∀ (k : Nat), k < out.length → getC out (k : Int) = out.getD k ("", 0) := by
    intro k _
    simp [getC]
  rw [List.Sorted, List.pairwise_iff_getElem]
  intro i j hi hj hij
  have hlen2 : out.length = candidates.length := hlen
  have h := hsorted (i : Int) (j : Int) (Int.natCast_nonneg i) (by omega)
    (by omega)
  rw [hgc i hi, hgc j hj] at h
  have hgi : out.getD i ("", 0) = out[i] := by
    simp [List.getD, List.get?_eq_getElem?, List.getElem?_eq_getElem hi]
  have hgj : out.getD j ("", 0) = out[j] := by
    simp [List.getD, List.get?_eq_getElem?, List.getElem?_eq_getElem hj]
  rw [hgi, hgj] at h
  exact h

/-- Witness for `c8_sort_perm_sorted`: two candidates whose subjects are
both present in the registry. -/
theorem c8_sort_perm_sorted_witness :
    (∀ c ∈ ([("B", 0), ("A", 0)] : List (String × Nat)),
      (lookupSubj [("A", [⟨0, [1, 2]⟩]), ("B", [⟨1, [3]⟩])] c.1).isSome) ∧
    (∃ out,
      sort_by_ascending_attendance [("B", 0), ("A", 0)]
          [("A", [⟨0, [1, 2]⟩]), ("B", [⟨1, [3]⟩])] 0
          ((([("B", 0), ("A", 0)] : List (String × Nat)).length : Int) - 1) =
        .ok out ∧
      ([("B", 0), ("A", 0)] : List (String × Nat)).Perm out ∧
      List.Sorted (fun a b =>
        attendanceD a [("A", [⟨0, [1, 2]⟩]), ("B", [⟨1, [3]⟩])] ≤
          attendanceD b [("A", [⟨0, [1, 2]⟩]), ("B", [⟨1, [3]⟩])]) out ∧
      (∀ c ∈ ([("B", 0), ("A", 0)] : List (String × Nat)),
        attendance c [("A", [⟨0, [1, 2]⟩]), ("B", [⟨1, [3]⟩])] =
          some (attendanceD c [("A", [⟨0, [1, 2]⟩]), ("B", [⟨1, [3]⟩])]))) :=
  ⟨by decide, c8_sort_perm_sorted [("B", 0), ("A", 0)]
    [("A", [⟨0, [1, 2]⟩]), ("B", [⟨1, [3]⟩])] (by decide)⟩

end Timetabler
